import Mathlib

/-!
Shallow embedding of the HT1621 high-level-analyzer decoders
(`src/HT1621.py` and `src/HighLevelAnalyzer.py`).

Input events (`Frame`) carry a `type` string ("enable" / "result" /
"disable"), timestamps, and a payload dictionary mapping keys such as
"mosi" to byte lists.  Output records (`AnalyzerFrame`) carry a label,
the stored transaction timestamps, and an insertion-ordered field
dictionary whose values may be Python `None` (modelled as `Option`).

Python exceptions (a `KeyError` on `frame.data['mosi']` or an
`IndexError` on `codeb[0]`) are modelled by an `Except Unit` result;
mutations performed before the raising statement are kept in the
returned state, exactly as a Python object keeps them.
-/

/-- An input event as delivered to `Hla.decode`: a frame type string,
timestamps, and the payload dictionary (key, byte list). -/
structure Frame where
  type : String
  start_time : Nat
  end_time : Nat
  data : List (String × List Nat)
deriving DecidableEq

/-- An emitted record: `AnalyzerFrame(label, start, end, data_dict)`
with the dictionary kept in insertion order; a value `none` models a
Python `None` dictionary value. -/
structure AnalyzerFrame where
  type : String
  start_time : Nat
  end_time : Nat
  data : List (String × Option String)
deriving DecidableEq

deriving instance DecidableEq for Except

/-- Dictionary lookup `d[k]` on a payload, `none` when the key is
missing (Python would raise `KeyError`). -/
def frameGet (d : List (String × List Nat)) (k : String) : Option (List Nat) :=
  (d.find? (fun p => p.1 == k)).map (fun p => p.2)

/-- Extraction `frame.data['mosi']` followed by `[0]`: extract the single bit
value from a payload; `none` models the raised exception when the key
is missing or the byte list is empty. -/
def extractBit (f : Frame) : Option Nat :=
  (frameGet f.data "mosi").bind List.head?

/-- Python `f"0x{n:x}"`: lowercase hex with no padding. -/
def fmtNibble (n : Nat) : String :=
  "0x" ++ String.mk (Nat.toDigits 16 n)

/-- Python `f"0x{n:02x}"`: lowercase hex zero-padded to width 2. -/
def fmtAddress (n : Nat) : String :=
  "0x" ++ String.mk (List.replicate (2 - (Nat.toDigits 16 n).length) '0' ++ Nat.toDigits 16 n)

/-- Python `f"0b{n:09b}"`: binary zero-padded to width 9. -/
def fmtCommandBits (n : Nat) : String :=
  "0b" ++ String.mk (List.replicate (9 - (Nat.toDigits 2 n).length) '0' ++ Nat.toDigits 2 n)

/-- Python `f"Unknown Mode {m}"`. -/
def fmtUnknownMode (m : Nat) : String :=
  "Unknown Mode " ++ toString m

/-- Python `x if x else d` for an optional string `x`: falsy values
(`None` and the empty string) fall back to `d`. -/
def pyOrElse (x : Option String) (d : String) : String :=
  match x with
  | none => d
  | some s => if s = "" then d else s

/-- The decoder-state enumeration of `src/HT1621.py`. -/
inductive DECODER_STATE where
  | START
  | GET_MODE
  | GET_ADDRESS
  | GET_DATA_NIBBLES
  | GET_COMMAND
deriving DecidableEq

/-- The table `HT1621_MODE`: the 3-bit mode dictionary, in source order. -/
def HT1621_MODE : List (Nat × String) :=
  [(0b110, "Read (0b110)"), (0b101, "Write (0b101)"), (0b100, "Command (0b100)")]

/-- Python `HT1621_MODE.get(m, default)`. -/
def modeLabel (m : Nat) : String :=
  ((HT1621_MODE.find? (fun p => p.1 == m)).map (fun p => p.2)).getD (fmtUnknownMode m)

/-- One entry of the command table: name, value, mask. -/
structure CommandPattern where
  name : String
  value : Nat
  mask : Nat
deriving DecidableEq

/-- The table `HT1621_COMMAND`: the ordered command table, exactly as listed in
the source. -/
def HT1621_COMMAND : List CommandPattern :=
  [⟨"SYS DIS",    0b000000000, 0b111111110⟩,
   ⟨"SYS EN",     0b000000010, 0b111111110⟩,
   ⟨"LCD OFF",    0b000000100, 0b111111110⟩,
   ⟨"LCD ON",     0b000000110, 0b111111110⟩,
   ⟨"TIMER DIS",  0b000001000, 0b111111110⟩,
   ⟨"WDT DIS",    0b000001010, 0b111111110⟩,
   ⟨"TIMER EN",   0b000001100, 0b111111110⟩,
   ⟨"WDT EN",     0b000001110, 0b111111110⟩,
   ⟨"TONE OFF",   0b000010000, 0b111111110⟩,
   ⟨"TONE ON",    0b000010010, 0b111111110⟩,
   ⟨"CLR TIMER",  0b000011000, 0b111111000⟩,
   ⟨"CLR WDT",    0b000011100, 0b111111100⟩,
   ⟨"XTAL 32K",   0b000101000, 0b111111000⟩,
   ⟨"RC 256K",    0b000110000, 0b111111000⟩,
   ⟨"EXT 256K",   0b000111000, 0b111111000⟩,
   ⟨"BIAS 1/2",   0b001000000, 0b111100010⟩,
   ⟨"BIAS 1/3",   0b001000010, 0b111100010⟩,
   ⟨"TONE 4K",    0b010000000, 0b111000000⟩,
   ⟨"TONE 2K",    0b011000000, 0b111000000⟩,
   ⟨"IRQ DIS",    0b100000000, 0b111010000⟩,
   ⟨"IRQ EN",     0b100010000, 0b111010000⟩,
   ⟨"F1",         0b101000000, 0b111001110⟩,
   ⟨"F2",         0b101000010, 0b111001110⟩,
   ⟨"F4",         0b101000100, 0b111001110⟩,
   ⟨"F8",         0b101000110, 0b111001110⟩,
   ⟨"F16",        0b101001000, 0b111001110⟩,
   ⟨"F32",        0b101001010, 0b111001110⟩,
   ⟨"F64",        0b101001100, 0b111001110⟩,
   ⟨"F128",       0b101001110, 0b111001110⟩,
   ⟨"TEST",       0b111000000, 0b111111110⟩,
   ⟨"NORMAL",     0b111000110, 0b111111110⟩]

/-- Matcher `lookup_command(bits)`: first entry of the ordered table with
`(bits & mask) == (value & mask)`, `None` when no entry matches. -/
def lookup_command (bits : Nat) : Option String :=
  (HT1621_COMMAND.find? (fun cmd => bits &&& cmd.mask == cmd.value &&& cmd.mask)).map
    (fun cmd => cmd.name)

/-- The mutable attributes of the `Hla` instance in `src/HT1621.py`.
`address_value` is not assigned in `__init__` (the source tests it with
`hasattr`), so absence is modelled by `none`. -/
structure Hla where
  state : DECODER_STATE
  mode_buffer : List Nat
  address_buffer : List Nat
  data_buffer : List Nat
  nibble_list : List Nat
  command_buffer : List Nat
  transaction_start_time : Option Nat
  transaction_end_time : Option Nat
  mode_type : Option String
  command_value : Option String
  command_bits : Option Nat
  address_value : Option String
deriving DecidableEq

/-- Constructor `Hla.__init__`. -/
def Hla.init : Hla :=
  ⟨.START, [], [], [], [], [], none, none, none, none, none, none⟩

/-- Method `Hla.decode_mode`: sets `transaction_start_time` on the first bit,
then extracts the bit (an error here models the raised exception, with
the start-time mutation already applied), appends it to the mode
buffer, and on the third bit resolves the mode and the next state. -/
def Hla.decode_mode (s : Hla) (f : Frame) : Hla × Except Unit Unit :=
  let s := if s.mode_buffer.length = 0 then
    { s with transaction_start_time := some f.start_time } else s
  match extractBit f with
  | none => (s, .error ())
  | some code =>
    let s := { s with mode_buffer := s.mode_buffer ++ [code] }
    if s.mode_buffer.length = 3 then
      let mode := s.mode_buffer.getD 0 0 <<< 2 ||| s.mode_buffer.getD 1 0 <<< 1 |||
        s.mode_buffer.getD 2 0
      let s := { s with mode_type := some (modeLabel mode) }
      if mode = 0b100 then
        ({ s with state := .GET_COMMAND, command_buffer := [] }, .ok ())
      else
        ({ s with state := .GET_ADDRESS, address_buffer := [] }, .ok ())
    else (s, .ok ())

/-- Method `Hla.decode_address`: appends the bit to the address buffer; on the
sixth bit assembles the MSB-first address, stores its formatted hex
string, and moves to nibble collection. -/
def Hla.decode_address (s : Hla) (f : Frame) : Hla × Except Unit Unit :=
  match extractBit f with
  | none => (s, .error ())
  | some code =>
    let s := { s with address_buffer := s.address_buffer ++ [code] }
    if s.address_buffer.length = 6 then
      let address := s.address_buffer.getD 0 0 <<< 5 ||| s.address_buffer.getD 1 0 <<< 4 |||
        s.address_buffer.getD 2 0 <<< 3 ||| s.address_buffer.getD 3 0 <<< 2 |||
        s.address_buffer.getD 4 0 <<< 1 ||| s.address_buffer.getD 5 0
      ({ s with
          address_value := some (fmtAddress address),
          state := .GET_DATA_NIBBLES,
          data_buffer := [] }, .ok ())
    else (s, .ok ())

/-- Method `Hla.decode_nibble`: appends the bit to the 4-bit data buffer; on
the fourth bit assembles the MSB-first nibble, appends it to the nibble
list, clears the buffer and updates the end time, staying in nibble
collection. -/
def Hla.decode_nibble (s : Hla) (f : Frame) : Hla × Except Unit Unit :=
  match extractBit f with
  | none => (s, .error ())
  | some code =>
    let s := { s with data_buffer := s.data_buffer ++ [code] }
    if s.data_buffer.length = 4 then
      let nibble := s.data_buffer.getD 0 0 <<< 3 ||| s.data_buffer.getD 1 0 <<< 2 |||
        s.data_buffer.getD 2 0 <<< 1 ||| s.data_buffer.getD 3 0
      ({ s with
          nibble_list := s.nibble_list ++ [nibble],
          data_buffer := [],
          transaction_end_time := some f.end_time }, .ok ())
    else (s, .ok ())

/-- The MSB-first 9-bit assembly loop of `decode_command`:
`for i, bit in enumerate(buffer): bits |= bit << (8 - i)`. -/
def cmdAssemble (l : List Nat) : Nat :=
  l.enum.foldl (fun bits p => bits ||| p.2 <<< (8 - p.1)) 0

/-- Method `Hla.decode_command`: appends the bit to the command buffer; on the
ninth bit assembles the word, stores the raw bits, resolves it through
`lookup_command` and updates the end time. -/
def Hla.decode_command (s : Hla) (f : Frame) : Hla × Except Unit Unit :=
  match extractBit f with
  | none => (s, .error ())
  | some code =>
    let s := { s with command_buffer := s.command_buffer ++ [code] }
    if s.command_buffer.length = 9 then
      let bits := cmdAssemble s.command_buffer
      ({ s with
          command_bits := some bits,
          command_value := lookup_command bits,
          transaction_end_time := some f.end_time }, .ok ())
    else (s, .ok ())

/-- The emission guard of the framing-end branch of `Hla.decode`:
start time, end time and mode label all set. -/
def disableGuard (s : Hla) : Prop :=
  s.transaction_start_time.isSome ∧ s.transaction_end_time.isSome ∧ s.mode_type.isSome

instance (s : Hla) : Decidable (disableGuard s) := by
  unfold disableGuard; infer_instance

/-- The `data_dict` built by the framing-end branch of `Hla.decode`. -/
def disableDict (s : Hla) : List (String × Option String) :=
  if s.mode_type = some "Command (0b100)" then
    [("command", some (pyOrElse s.command_value "Unknown Command")),
     ("command_bits", s.command_bits.map fmtCommandBits)]
  else
    (match s.address_value with
     | some a => [("address", some a)]
     | none => []) ++
    s.nibble_list.enum.map (fun p => ("data" ++ toString p.1, some (fmtNibble p.2)))

/-- The record built by the framing-end branch of `Hla.decode`. -/
def disableRecord (s : Hla) : AnalyzerFrame :=
  ⟨s.mode_type.getD "", s.transaction_start_time.getD 0,
    s.transaction_end_time.getD 0, disableDict s⟩

/-- Method `Hla.decode` of `src/HT1621.py`: the per-event entry point.
Returns the post-event instance state together with either the decode
result (`ok`: zero or one emitted record) or an uncaught exception. -/
def Hla.decode (s : Hla) (f : Frame) : Hla × Except Unit (Option AnalyzerFrame) :=
  if f.type = "enable" then
    ({ s with
        state := .GET_MODE,
        mode_buffer := [],
        address_buffer := [],
        data_buffer := [],
        nibble_list := [],
        command_buffer := [],
        transaction_start_time := none,
        transaction_end_time := none,
        mode_type := none,
        command_value := none,
        command_bits := none }, .ok none)
  else if f.type = "result" then
    match s.state with
    | .GET_MODE =>
      let r := s.decode_mode f
      (r.1, r.2.map (fun _ => none))
    | .GET_ADDRESS =>
      let r := s.decode_address f
      (r.1, r.2.map (fun _ => none))
    | .GET_DATA_NIBBLES =>
      let r := s.decode_nibble f
      (r.1, r.2.map (fun _ => none))
    | .GET_COMMAND =>
      let r := s.decode_command f
      (r.1, r.2.map (fun _ => none))
    | .START => (s, .ok none)
  else if f.type = "disable" then
    ({ s with state := .START },
      .ok (if disableGuard s then some (disableRecord s) else none))
  else (s, .ok none)

/-- Fold `Hla.decode` over an event list, keeping the final state. -/
def runState (s : Hla) : List Frame → Hla
  | [] => s
  | f :: fs => runState (s.decode f).1 fs

lemma runState_nil (s : Hla) : runState s [] = s := rfl

lemma runState_cons (s : Hla) (f : Frame) (fs : List Frame) :
    runState s (f :: fs) = runState (s.decode f).1 fs := rfl

/-- The 9-bit MSB-first expansion of a word, as bit values. -/
def natBits9 (w : Nat) : List Nat :=
  [w >>> 8 &&& 1, w >>> 7 &&& 1, w >>> 6 &&& 1, w >>> 5 &&& 1, w >>> 4 &&& 1,
   w >>> 3 &&& 1, w >>> 2 &&& 1, w >>> 1 &&& 1, w &&& 1]

/-- Fold `Hla.decode` over an event list, collecting the per-event
results in order. -/
def runTrace (s : Hla) : List Frame → List (Except Unit (Option AnalyzerFrame))
  | [] => []
  | f :: fs => (s.decode f).2 :: runTrace (s.decode f).1 fs

/-- The sequence of emitted records of a run from a freshly constructed
decoder. -/
def runOutputs (evts : List Frame) : List AnalyzerFrame :=
  (runTrace Hla.init evts).filterMap (fun e =>
    match e with
    | .ok (some r) => some r
    | _ => none)

/-- A well-formed bit event with value `v`, sampled over `[t, t+1]`. -/
def mkBit (v t : Nat) : Frame :=
  ⟨"result", t, t + 1, [("mosi", [v])]⟩

/-- Bit events for a bit list, timestamped consecutively from `t`. -/
def bitFramesFrom (t : Nat) : List Nat → List Frame
  | [] => []
  | b :: bs => mkBit b t :: bitFramesFrom (t + 1) bs

/-- A framing-start (chip-select asserted) event. -/
def enableF : Frame := ⟨"enable", 0, 0, []⟩

/-- A framing-end (chip-select deasserted) event. -/
def disableF : Frame := ⟨"disable", 100, 100, []⟩

/-- A full transaction window: framing-start, the given bits, framing-end. -/
def txnEvents (bs : List Nat) : List Frame :=
  enableF :: bitFramesFrom 0 bs ++ [disableF]

namespace V2

/-- The decoder-state enumeration of `src/HighLevelAnalyzer.py`
(no command state). -/
inductive DECODER_STATE where
  | START
  | GET_MODE
  | GET_ADDRESS
  | GET_DATA_NIBBLES
deriving DecidableEq

/-- The table `HT1621_CMD`: the 3-bit mode dictionary of
`src/HighLevelAnalyzer.py`, in source order. -/
def HT1621_CMD : List (Nat × String) :=
  [(0b110, "Read (0b110)"), (0b101, "Write (0b101)"), (0b100, "Command (0b100)")]

/-- Python `HT1621_CMD.get(m, default)`. -/
def modeLabel (m : Nat) : String :=
  ((HT1621_CMD.find? (fun p => p.1 == m)).map (fun p => p.2)).getD (fmtUnknownMode m)

/-- The mutable attributes of the `Hla` instance in
`src/HighLevelAnalyzer.py`; `transaction_data` is assigned but never
read. `address_value` is again absent until first assigned. -/
structure Hla where
  state : DECODER_STATE
  mode_buffer : List Nat
  address_buffer : List Nat
  data_buffer : List Nat
  nibble_list : List Nat
  transaction_data : List (String × Option String)
  transaction_start_time : Option Nat
  transaction_end_time : Option Nat
  mode_type : Option String
  address_value : Option String
deriving DecidableEq

/-- Constructor `Hla.__init__` of `src/HighLevelAnalyzer.py`. -/
def Hla.init : Hla :=
  ⟨.START, [], [], [], [], [], none, none, none, none⟩

/-- Method `Hla.decode_mode` of `src/HighLevelAnalyzer.py`: same as the
HT1621 variant except that every resolved mode proceeds to address
collection. -/
def Hla.decode_mode (s : Hla) (f : Frame) : Hla × Except Unit Unit :=
  let s := if s.mode_buffer.length = 0 then
    { s with transaction_start_time := some f.start_time } else s
  match extractBit f with
  | none => (s, .error ())
  | some code =>
    let s := { s with mode_buffer := s.mode_buffer ++ [code] }
    if s.mode_buffer.length = 3 then
      let mode := s.mode_buffer.getD 0 0 <<< 2 ||| s.mode_buffer.getD 1 0 <<< 1 |||
        s.mode_buffer.getD 2 0
      ({ s with
          mode_type := some (modeLabel mode),
          state := .GET_ADDRESS,
          address_buffer := [] }, .ok ())
    else (s, .ok ())

/-- Method `Hla.decode_address` of `src/HighLevelAnalyzer.py`. -/
def Hla.decode_address (s : Hla) (f : Frame) : Hla × Except Unit Unit :=
  match extractBit f with
  | none => (s, .error ())
  | some code =>
    let s := { s with address_buffer := s.address_buffer ++ [code] }
    if s.address_buffer.length = 6 then
      let address := s.address_buffer.getD 0 0 <<< 5 ||| s.address_buffer.getD 1 0 <<< 4 |||
        s.address_buffer.getD 2 0 <<< 3 ||| s.address_buffer.getD 3 0 <<< 2 |||
        s.address_buffer.getD 4 0 <<< 1 ||| s.address_buffer.getD 5 0
      ({ s with
          address_value := some (fmtAddress address),
          state := .GET_DATA_NIBBLES,
          data_buffer := [] }, .ok ())
    else (s, .ok ())

/-- Method `Hla.decode_nibble` of `src/HighLevelAnalyzer.py`. -/
def Hla.decode_nibble (s : Hla) (f : Frame) : Hla × Except Unit Unit :=
  match extractBit f with
  | none => (s, .error ())
  | some code =>
    let s := { s with data_buffer := s.data_buffer ++ [code] }
    if s.data_buffer.length = 4 then
      let nibble := s.data_buffer.getD 0 0 <<< 3 ||| s.data_buffer.getD 1 0 <<< 2 |||
        s.data_buffer.getD 2 0 <<< 1 ||| s.data_buffer.getD 3 0
      ({ s with
          nibble_list := s.nibble_list ++ [nibble],
          data_buffer := [],
          transaction_end_time := some f.end_time }, .ok ())
    else (s, .ok ())

/-- Method `Hla.decode` of `src/HighLevelAnalyzer.py`. -/
def Hla.decode (s : Hla) (f : Frame) : Hla × Except Unit (Option AnalyzerFrame) :=
  if f.type = "enable" then
    ({ s with
        state := .GET_MODE,
        mode_buffer := [],
        address_buffer := [],
        data_buffer := [],
        nibble_list := [],
        transaction_data := [],
        transaction_start_time := none,
        transaction_end_time := none,
        mode_type := none }, .ok none)
  else if f.type = "result" then
    match s.state with
    | .GET_MODE =>
      let r := s.decode_mode f
      (r.1, r.2.map (fun _ => none))
    | .GET_ADDRESS =>
      let r := s.decode_address f
      (r.1, r.2.map (fun _ => none))
    | .GET_DATA_NIBBLES =>
      let r := s.decode_nibble f
      (r.1, r.2.map (fun _ => none))
    | .START => (s, .ok none)
  else if f.type = "disable" then
    let out : Option AnalyzerFrame :=
      if s.transaction_start_time.isSome ∧ s.transaction_end_time.isSome ∧
          s.mode_type.isSome then
        let data_dict : List (String × Option String) :=
          (match s.address_value with
           | some a => [("address", some a)]
           | none => []) ++
          s.nibble_list.enum.map (fun p => ("data" ++ toString p.1, some (fmtNibble p.2)))
        some ⟨s.mode_type.getD "", s.transaction_start_time.getD 0,
          s.transaction_end_time.getD 0, data_dict⟩
      else none
    ({ s with state := .START }, .ok out)
  else (s, .ok none)

/-- Fold `V2.Hla.decode` over an event list, keeping the final state. -/
def runState (s : Hla) : List Frame → Hla
  | [] => s
  | f :: fs => runState (s.decode f).1 fs

/-- Fold `V2.Hla.decode` over an event list, collecting the per-event
results in order. -/
def runTrace (s : Hla) : List Frame → List (Except Unit (Option AnalyzerFrame))
  | [] => []
  | f :: fs => (s.decode f).2 :: runTrace (s.decode f).1 fs

/-- The sequence of emitted records of a `src/HighLevelAnalyzer.py` run
from a freshly constructed decoder. -/
def runOutputs (evts : List Frame) : List AnalyzerFrame :=
  (runTrace Hla.init evts).filterMap (fun e =>
    match e with
    | .ok (some r) => some r
    | _ => none)

end V2

/-- A 9-bit word matches a command-table entry when
`(bits & mask) == (value & mask)`. -/
def cmdMatches (bits : Nat) (c : CommandPattern) : Prop :=
  bits &&& c.mask = c.value &&& c.mask

instance (bits : Nat) (c : CommandPattern) : Decidable (cmdMatches bits c) := by
  unfold cmdMatches; infer_instance

/-- Lemma: `List.find?` returns the first element satisfying the predicate:
either no element satisfies it, or the result is the element at some
index `i` with every earlier index failing the predicate. -/
lemma find?_first {α : Type} (p : α → Bool) (l : List α) :
    (l.find? p = none ∧ ∀ a ∈ l, p a = false) ∨
    (∃ i, ∃ h : i < l.length, p (l.get ⟨i, h⟩) = true ∧
      l.find? p = some (l.get ⟨i, h⟩) ∧
      ∀ j, ∀ hj : j < l.length, j < i → p (l.get ⟨j, hj⟩) = false) := by
  induction l with
  | nil => exact Or.inl ⟨rfl, by simp⟩
  | cons a t ih =>
    cases hpa : p a with
    | true =>
      refine Or.inr ⟨0, by simp, by simpa using hpa, by simp [List.find?, hpa], ?_⟩
      intro j hj hj0
      omega
    | false =>
      rcases ih with ⟨hn, hall⟩ | ⟨i, h, hpi, hfind, hfirst⟩
      · refine Or.inl ⟨by simp [List.find?, hpa, hn], ?_⟩
        intro x hx
        rcases List.mem_cons.mp hx with rfl | hx
        · exact hpa
        · exact hall x hx
      · refine Or.inr ⟨i + 1, by simpa using Nat.succ_lt_succ h, by simpa using hpi,
          by simp [List.find?, hpa, hfind], ?_⟩
        intro j hj hji
        cases j with
        | zero => simpa using hpa
        | succ j' =>
          have hj' : j' < t.length := by simpa using Nat.lt_of_succ_lt_succ hj
          simpa using hfirst j' hj' (Nat.lt_of_succ_lt_succ hji)

set_option maxRecDepth 8192 in
/-- C2: `lookup_command` returns the name of the earliest matching
entry of the ordered table (the no-match sentinel when none matches),
and every 9-bit word satisfying both the "CLR TIMER" and the
"CLR WDT" patterns resolves to "CLR TIMER". -/
theorem lookup_command_first_match :
    (∀ bits : Nat,
      (lookup_command bits = none ∧ ∀ c ∈ HT1621_COMMAND, ¬ cmdMatches bits c) ∨
      (∃ i, ∃ h : i < HT1621_COMMAND.length,
        cmdMatches bits (HT1621_COMMAND.get ⟨i, h⟩) ∧
        lookup_command bits = some (HT1621_COMMAND.get ⟨i, h⟩).name ∧
        ∀ j, ∀ hj : j < HT1621_COMMAND.length, j < i →
          ¬ cmdMatches bits (HT1621_COMMAND.get ⟨j, hj⟩))) ∧
    (∀ bits : Nat, bits < 512 →
      bits &&& 0b111111000 = 0b000011000 &&& 0b111111000 →
      bits &&& 0b111111100 = 0b000011100 &&& 0b111111100 →
      lookup_command bits = some "CLR TIMER") := by
  constructor
  · intro bits
    rcases find?_first (fun cmd => bits &&& cmd.mask == cmd.value &&& cmd.mask)
        HT1621_COMMAND with ⟨hn, hall⟩ | ⟨i, h, hpi, hfind, hfirst⟩
    · left
      refine ⟨by simp [lookup_command, hn], ?_⟩
      intro c hc hm
      have hb := hall c hc
      rw [cmdMatches] at hm
      simp [hm] at hb
    · right
      refine ⟨i, h, ?_, by simp [lookup_command, hfind], ?_⟩
      · have := hpi
        rw [cmdMatches]
        simpa using this
      · intro j hj hji hm
        have hb := hfirst j hj hji
        rw [cmdMatches] at hm
        simp [List.get_eq_getElem] at hm
        simp [hm] at hb
  · decide

/-- C2 witness: `0b000011100 = 28` satisfies both overlapping
patterns and resolves to "CLR TIMER". -/
theorem lookup_command_first_match_witness :
    lookup_command 28 = some "CLR TIMER" :=
  lookup_command_first_match.2 28 (by decide) (by decide) (by decide)

/-- C3: the write transaction with address bits `000001` and nibbles
`1000`, `0001` emits exactly one record labelled "Write (0b101)" with
fields address `0x01`, `data0 = 0x8`, `data1 = 0x1`, and the decoder
is in nibble collection both between the two nibbles and after the
second one. -/
theorem write_multi_nibble_transaction :
    runOutputs (txnEvents [1,0,1, 0,0,0,0,0,1, 1,0,0,0, 0,0,0,1]) =
      [⟨"Write (0b101)", 0, 17,
        [("address", some "0x01"), ("data0", some "0x8"), ("data1", some "0x1")]⟩] ∧
    (runState Hla.init (enableF :: bitFramesFrom 0 [1,0,1, 0,0,0,0,0,1, 1,0,0,0])).state =
      DECODER_STATE.GET_DATA_NIBBLES ∧
    (runState Hla.init
        (enableF :: bitFramesFrom 0 [1,0,1, 0,0,0,0,0,1, 1,0,0,0, 0,0,0,1])).state =
      DECODER_STATE.GET_DATA_NIBBLES := by
  decide

/-- C4: the command transaction with mode bits `100` and nine zero
command bits emits exactly one record labelled "Command (0b100)" with
fields command "SYS DIS" and command bits "0b000000000". -/
theorem command_classification_end_to_end :
    runOutputs (txnEvents [1,0,0, 0,0,0,0,0,0,0,0,0]) =
      [⟨"Command (0b100)", 0, 12,
        [("command", some "SYS DIS"), ("command_bits", some "0b000000000")]⟩] := by
  decide

/-- C5 counterexample: after a completed write transaction and a new
framing-start, the stored `address_value` from the earlier transaction
still persists, so framing-start does not restore the freshly
constructed state (up to the mode-collection state tag). -/
theorem enable_reset_keeps_address_value_cex :
    (runState Hla.init (txnEvents [1,0,1, 0,0,0,0,0,1, 1,0,0,0] ++ [enableF])).address_value =
      some "0x01" ∧
    runState Hla.init (txnEvents [1,0,1, 0,0,0,0,0,1, 1,0,0,0] ++ [enableF]) ≠
      { Hla.init with state := DECODER_STATE.GET_MODE } := by
  decide

/-- C5 amended: processing a framing-start event from any state
restores every mutable field to the freshly constructed state and
enters mode collection, except for the stored `address_value`, which
persists from the previous transaction. -/
theorem enable_resets_all_but_address_value (s : Hla) (f : Frame)
    (hf : f.type = "enable") :
    (s.decode f).1 = { Hla.init with
      state := DECODER_STATE.GET_MODE,
      address_value := s.address_value } := by
  cases s
  simp [Hla.decode, hf, Hla.init]

/-- C5 amended witness at the fresh state and a concrete enable event. -/
theorem enable_resets_all_but_address_value_witness :
    (Hla.init.decode enableF).1 = { Hla.init with
      state := DECODER_STATE.GET_MODE,
      address_value := Hla.init.address_value } :=
  enable_resets_all_but_address_value Hla.init enableF rfl

/-- C6 counterexample: a bit event with no extractable bit value,
delivered in mode-collection state, raises an uncaught exception and
has already mutated the accumulator state (the transaction start
time) before raising, contradicting propagated silence. -/
theorem malformed_bit_event_cex :
    (((Hla.init.decode enableF).1.decode ⟨"result", 5, 6, []⟩).2 = Except.error ()) ∧
    ((Hla.init.decode enableF).1.decode ⟨"result", 5, 6, []⟩).1 ≠
      (Hla.init.decode enableF).1 := by
  decide

/-- C6 amended: a result event without an extractable bit raises an
exception exactly when the decoder is in a collecting state (in idle
it is ignored), and the state is unchanged except that in
mode-collection with an empty mode buffer the transaction start time
has already been set when the exception is raised. -/
theorem malformed_bit_event_behavior (s : Hla) (f : Frame)
    (hf : f.type = "result") (hb : extractBit f = none) :
    ((s.decode f).2 = Except.error () ↔ s.state ≠ DECODER_STATE.START) ∧
    (s.decode f).1 = (if s.state = DECODER_STATE.GET_MODE ∧ s.mode_buffer = [] then
      { s with transaction_start_time := some f.start_time } else s) := by
  cases hs : s.state with
  | START => simp [Hla.decode, hf, hs]
  | GET_MODE =>
    cases hmb : s.mode_buffer with
    | nil => simp [Hla.decode, Hla.decode_mode, Except.map, hf, hs, hb, hmb]
    | cons a t => simp [Hla.decode, Hla.decode_mode, Except.map, hf, hs, hb, hmb]
  | GET_ADDRESS => simp [Hla.decode, Hla.decode_address, Except.map, hf, hs, hb]
  | GET_DATA_NIBBLES => simp [Hla.decode, Hla.decode_nibble, Except.map, hf, hs, hb]
  | GET_COMMAND => simp [Hla.decode, Hla.decode_command, Except.map, hf, hs, hb]

/-- C6 amended witness: the fresh post-enable state with a payload
missing the bit field. -/
theorem malformed_bit_event_behavior_witness :
    (((Hla.init.decode enableF).1.decode ⟨"result", 5, 6, []⟩).2 = Except.error () ↔
      (Hla.init.decode enableF).1.state ≠ DECODER_STATE.START) ∧
    ((Hla.init.decode enableF).1.decode ⟨"result", 5, 6, []⟩).1 =
      (if (Hla.init.decode enableF).1.state = DECODER_STATE.GET_MODE ∧
          (Hla.init.decode enableF).1.mode_buffer = [] then
        { (Hla.init.decode enableF).1 with transaction_start_time := some 5 }
      else (Hla.init.decode enableF).1) :=
  malformed_bit_event_behavior (Hla.init.decode enableF).1 ⟨"result", 5, 6, []⟩ rfl rfl

/-- C7 counterexample: mode bits `000` (value 0, outside the known
modes) set the label "Unknown Mode 0", yet framing-end emits no
record at all — not a labelled record with an empty fields map. -/
theorem unknown_mode_cex :
    runOutputs (txnEvents [0,0,0]) = [] ∧
    (runState Hla.init (enableF :: bitFramesFrom 0 [0,0,0])).mode_type =
      some "Unknown Mode 0" := by
  decide

/-- An unknown-mode label never equals the command-mode label (their
first characters differ). -/
lemma fmtUnknownMode_ne_command (m : Nat) :
    fmtUnknownMode m ≠ "Command (0b100)" := by
  intro h
  unfold fmtUnknownMode at h
  have h2 := congrArg (fun s => s.data.head?) h
  simp [String.data_append] at h2

/-- Running an appended event list runs the two parts in sequence. -/
lemma runState_append (s : Hla) (l1 l2 : List Frame) :
    runState s (l1 ++ l2) = runState (runState s l1) l2 := by
  induction l1 generalizing s with
  | nil => rfl
  | cons f fs ih => rw [List.cons_append, runState_cons, runState_cons, ih]

/-- Invariant of the address-collection phase of a transaction whose
mode resolved to the unknown label for value `m`: the decoder is in
address or nibble collection, the end time is set exactly when a
complete nibble was collected, and nibble collection is only reached
with a completed 6-bit address (its formatted value stored). -/
def UInv (m : Nat) (s : Hla) : Prop :=
  s.mode_type = some (fmtUnknownMode m) ∧
  s.command_bits = none ∧
  s.transaction_start_time ≠ none ∧
  (s.transaction_end_time ≠ none ↔ s.nibble_list ≠ []) ∧
  ((s.state = DECODER_STATE.GET_ADDRESS ∧ s.nibble_list = []) ∨
   (s.state = DECODER_STATE.GET_DATA_NIBBLES ∧ s.address_buffer.length = 6 ∧
    s.address_value.isSome))

/-- A well-formed bit event preserves the unknown-mode invariant. -/
lemma uinv_step (m : Nat) (s : Hla) (f : Frame) (hf : f.type = "result")
    (hb : (extractBit f).isSome) (hs : UInv m s) : UInv m (s.decode f).1 := by
  obtain ⟨v, hv⟩ := Option.isSome_iff_exists.mp hb
  obtain ⟨hmt, hcb, hst, hiff, hdisj⟩ := hs
  rcases hdisj with ⟨hsv, hnl⟩ | ⟨hsv, hab, hav⟩
  · simp only [Hla.decode, Hla.decode_address, hf, hsv, hv]
    simp only [reduceIte]
    split_ifs with h6 <;>
      simp_all [UInv, List.length_append]
  · simp only [Hla.decode, Hla.decode_nibble, hf, hsv, hv]
    simp only [reduceIte]
    split_ifs with h4 <;>
      simp_all [UInv, List.length_append]

/-- The unknown-mode invariant is preserved along any run of
well-formed bit events. -/
lemma uinv_run (m : Nat) (l : List Frame)
    (hl : ∀ f ∈ l, f.type = "result" ∧ (extractBit f).isSome) (s : Hla)
    (hs : UInv m s) : UInv m (runState s l) := by
  induction l generalizing s with
  | nil => simpa [runState_nil] using hs
  | cons f fs ih =>
    rw [runState_cons]
    exact ih (fun g hg => hl g (List.mem_cons_of_mem f hg)) _
      (uinv_step m s f (hl f (List.mem_cons_self f fs)).1
        (hl f (List.mem_cons_self f fs)).2 hs)

/-- C7 amended: three mode bits resolving outside the known modes set
the label "Unknown Mode <value>" and move to address collection; then,
after any further well-formed bit events, a framing-end arriving while
no complete nibble was collected finds the end time unset and emits no
record at all, and a record that is emitted comes only after a full
6-bit address (its formatted value stored) and at least one complete
nibble, so its fields map is never empty. -/
theorem unknown_mode_labelled_and_dropped (s0 : Hla) (e f1 f2 f3 d : Frame)
    (l : List Frame) (v1 v2 v3 : Nat)
    (he : e.type = "enable") (hd : d.type = "disable")
    (ht1 : f1.type = "result") (ht2 : f2.type = "result") (ht3 : f3.type = "result")
    (hb1 : extractBit f1 = some v1) (hb2 : extractBit f2 = some v2)
    (hb3 : extractBit f3 = some v3)
    (hl : ∀ f ∈ l, f.type = "result" ∧ (extractBit f).isSome)
    (hm6 : v1 <<< 2 ||| v2 <<< 1 ||| v3 ≠ 0b110)
    (hm5 : v1 <<< 2 ||| v2 <<< 1 ||| v3 ≠ 0b101)
    (hm4 : v1 <<< 2 ||| v2 <<< 1 ||| v3 ≠ 0b100) :
    (runState s0 [e, f1, f2, f3]).mode_type =
      some (fmtUnknownMode (v1 <<< 2 ||| v2 <<< 1 ||| v3)) ∧
    (runState s0 [e, f1, f2, f3]).state = DECODER_STATE.GET_ADDRESS ∧
    ((runState s0 (e :: f1 :: f2 :: f3 :: l)).nibble_list = [] →
      (runState s0 (e :: f1 :: f2 :: f3 :: l)).transaction_end_time = none ∧
      ((runState s0 (e :: f1 :: f2 :: f3 :: l)).decode d).2 = Except.ok none) ∧
    (∀ r, ((runState s0 (e :: f1 :: f2 :: f3 :: l)).decode d).2 =
        Except.ok (some r) →
      (runState s0 (e :: f1 :: f2 :: f3 :: l)).address_buffer.length = 6 ∧
      (runState s0 (e :: f1 :: f2 :: f3 :: l)).address_value.isSome ∧
      (runState s0 (e :: f1 :: f2 :: f3 :: l)).nibble_list ≠ [] ∧
      r.data ≠ []) := by
  have h6 : ((6 : Nat) == v1 <<< 2 ||| v2 <<< 1 ||| v3) = false := by
    simpa using Ne.symm hm6
  have h5 : ((5 : Nat) == v1 <<< 2 ||| v2 <<< 1 ||| v3) = false := by
    simpa using Ne.symm hm5
  have h4 : ((4 : Nat) == v1 <<< 2 ||| v2 <<< 1 ||| v3) = false := by
    simpa using Ne.symm hm4
  have hmode : modeLabel (v1 <<< 2 ||| v2 <<< 1 ||| v3) =
      fmtUnknownMode (v1 <<< 2 ||| v2 <<< 1 ||| v3) := by
    simp [modeLabel, HT1621_MODE, List.find?, h6, h5, h4]
  have hrun : runState s0 [e, f1, f2, f3] =
      { state := DECODER_STATE.GET_ADDRESS, mode_buffer := [v1, v2, v3],
        address_buffer := [], data_buffer := [], nibble_list := [],
        command_buffer := [], transaction_start_time := some f1.start_time,
        transaction_end_time := none,
        mode_type := some (fmtUnknownMode (v1 <<< 2 ||| v2 <<< 1 ||| v3)),
        command_value := none, command_bits := none,
        address_value := s0.address_value } := by
    simp [runState, Hla.decode, Hla.decode_mode, he, ht1, ht2, ht3, hb1, hb2, hb3,
      hmode, hm4]
  have hu : UInv (v1 <<< 2 ||| v2 <<< 1 ||| v3)
      (runState s0 (e :: f1 :: f2 :: f3 :: l)) := by
    rw [show (e :: f1 :: f2 :: f3 :: l) = [e, f1, f2, f3] ++ l from rfl,
      runState_append, hrun]
    refine uinv_run _ l hl _ ?_
    simp [UInv]
  obtain ⟨hmt, hcb, hst, hiff, hdisj⟩ := hu
  refine ⟨by rw [hrun], by rw [hrun], ?_, ?_⟩
  · intro hnl
    have hend : (runState s0 (e :: f1 :: f2 :: f3 :: l)).transaction_end_time = none := by
      by_contra hne
      exact (hiff.mp hne) hnl
    refine ⟨hend, ?_⟩
    simp [Hla.decode, hd, disableGuard, hend]
  · intro r hr
    have hg : disableGuard (runState s0 (e :: f1 :: f2 :: f3 :: l)) := by
      by_contra hng
      simp [Hla.decode, hd, hng] at hr
    have hne : (runState s0 (e :: f1 :: f2 :: f3 :: l)).transaction_end_time ≠ none := by
      simpa [Option.isSome_iff_ne_none] using hg.2.1
    have hnl : (runState s0 (e :: f1 :: f2 :: f3 :: l)).nibble_list ≠ [] := hiff.mp hne
    rcases hdisj with ⟨hsv, hn0⟩ | ⟨hsv, hab, hav⟩
    · exact absurd hn0 hnl
    refine ⟨hab, hav, hnl, ?_⟩
    have hrrec : disableRecord (runState s0 (e :: f1 :: f2 :: f3 :: l)) = r := by
      simp [Hla.decode, hd, hg] at hr
      exact hr
    obtain ⟨a, ha⟩ := Option.isSome_iff_exists.mp hav
    rw [← hrrec]
    simp [disableRecord, disableDict, hmt, fmtUnknownMode_ne_command, ha]

/-- C7 amended witness: mode bits `000` at concrete events, followed
by two further address bits (a partial address) and framing-end. -/
theorem unknown_mode_labelled_and_dropped_witness :
    (runState Hla.init [enableF, mkBit 0 0, mkBit 0 1, mkBit 0 2]).mode_type =
      some (fmtUnknownMode (0 <<< 2 ||| 0 <<< 1 ||| 0)) ∧
    (runState Hla.init [enableF, mkBit 0 0, mkBit 0 1, mkBit 0 2]).state =
      DECODER_STATE.GET_ADDRESS ∧
    ((runState Hla.init (enableF :: mkBit 0 0 :: mkBit 0 1 :: mkBit 0 2 ::
        [mkBit 0 3, mkBit 0 4])).nibble_list = [] →
      (runState Hla.init (enableF :: mkBit 0 0 :: mkBit 0 1 :: mkBit 0 2 ::
        [mkBit 0 3, mkBit 0 4])).transaction_end_time = none ∧
      ((runState Hla.init (enableF :: mkBit 0 0 :: mkBit 0 1 :: mkBit 0 2 ::
        [mkBit 0 3, mkBit 0 4])).decode disableF).2 = Except.ok none) ∧
    (∀ r, ((runState Hla.init (enableF :: mkBit 0 0 :: mkBit 0 1 :: mkBit 0 2 ::
        [mkBit 0 3, mkBit 0 4])).decode disableF).2 = Except.ok (some r) →
      (runState Hla.init (enableF :: mkBit 0 0 :: mkBit 0 1 :: mkBit 0 2 ::
        [mkBit 0 3, mkBit 0 4])).address_buffer.length = 6 ∧
      (runState Hla.init (enableF :: mkBit 0 0 :: mkBit 0 1 :: mkBit 0 2 ::
        [mkBit 0 3, mkBit 0 4])).address_value.isSome ∧
      (runState Hla.init (enableF :: mkBit 0 0 :: mkBit 0 1 :: mkBit 0 2 ::
        [mkBit 0 3, mkBit 0 4])).nibble_list ≠ [] ∧
      r.data ≠ []) :=
  unknown_mode_labelled_and_dropped Hla.init enableF (mkBit 0 0) (mkBit 0 1) (mkBit 0 2)
    disableF [mkBit 0 3, mkBit 0 4] 0 0 0 rfl rfl rfl rfl rfl rfl rfl rfl
    (by decide) (by decide) (by decide) (by decide)

/-- C10: if framing-end emits a record, it resets only the state tag,
so a second framing-end immediately afterwards emits the identical
record again. -/
theorem double_disable_reemits (s : Hla) (f g : Frame) (r : AnalyzerFrame)
    (hf : f.type = "disable") (hg : g.type = "disable")
    (h : (s.decode f).2 = Except.ok (some r)) :
    (s.decode f).1 = { s with state := DECODER_STATE.START } ∧
    ((s.decode f).1.decode g).2 = Except.ok (some r) := by
  have h1 : (s.decode f).1 = { s with state := DECODER_STATE.START } := by
    simp [Hla.decode, hf]
  have h2 : (({ s with state := DECODER_STATE.START } : Hla).decode g).2 =
      (s.decode f).2 := by
    simp [Hla.decode, hf, hg, disableGuard, disableRecord, disableDict]
  rw [h1, h2, h]
  exact ⟨rfl, rfl⟩

/-- C10 witness: a concrete emitting state, framing-end twice. -/
theorem double_disable_reemits_witness :
    (({ Hla.init with
        transaction_start_time := some 0,
        transaction_end_time := some 1,
        mode_type := some "Write (0b101)" } : Hla).decode disableF).1 =
      { ({ Hla.init with
          transaction_start_time := some 0,
          transaction_end_time := some 1,
          mode_type := some "Write (0b101)" } : Hla) with state := DECODER_STATE.START } ∧
    ((({ Hla.init with
        transaction_start_time := some 0,
        transaction_end_time := some 1,
        mode_type := some "Write (0b101)" } : Hla).decode disableF).1.decode disableF).2 =
      Except.ok (some ⟨"Write (0b101)", 0, 1, []⟩) :=
  double_disable_reemits _ disableF disableF ⟨"Write (0b101)", 0, 1, []⟩ rfl rfl (by decide)

/-- Invariant of the decoder state reached from a framing-start event
followed by any number of well-formed bit events: the state tag, the
mode buffer, the resolved mode label, the transaction timestamps and
the collected data are mutually consistent. -/
def DecInv (s : Hla) : Prop :=
  s.state ≠ DECODER_STATE.START ∧
  (s.state = DECODER_STATE.GET_MODE →
    s.mode_buffer.length < 3 ∧ s.mode_type = none ∧ s.nibble_list = [] ∧
    s.command_bits = none) ∧
  (s.state ≠ DECODER_STATE.GET_MODE →
    s.mode_buffer.length = 3 ∧ s.mode_type ≠ none) ∧
  (s.transaction_start_time ≠ none ↔ s.mode_buffer ≠ []) ∧
  (s.transaction_end_time ≠ none ↔ (s.nibble_list ≠ [] ∨ s.command_bits ≠ none))

/-- A framing-start event establishes the invariant from any state. -/
lemma inv_enable (s : Hla) (f : Frame) (hf : f.type = "enable") :
    DecInv (s.decode f).1 := by
  simp [Hla.decode, hf, DecInv]

/-- A well-formed bit event preserves the invariant. -/
lemma inv_step (s : Hla) (f : Frame) (hf : f.type = "result")
    (hb : (extractBit f).isSome) (hs : DecInv s) : DecInv (s.decode f).1 := by
  obtain ⟨v, hv⟩ := Option.isSome_iff_exists.mp hb
  obtain ⟨hst, hgm, hngm, hstart, hend⟩ := hs
  cases hsv : s.state with
  | START => exact absurd hsv hst
  | GET_MODE =>
    obtain ⟨hlen, hmt, hnl, hcb⟩ := hgm hsv
    simp only [Hla.decode, Hla.decode_mode, hf, hsv, hv]
    simp only [reduceIte]
    split_ifs with hz h3 h4 h3' <;>
      simp_all [DecInv, List.length_append, List.length_eq_zero] <;>
      omega
  | GET_ADDRESS =>
    obtain ⟨hlen, hmt⟩ := hngm (by simp [hsv])
    simp only [Hla.decode, Hla.decode_address, hf, hsv, hv]
    simp only [reduceIte]
    split_ifs with h6 <;>
      simp_all [DecInv, List.length_append]
  | GET_DATA_NIBBLES =>
    obtain ⟨hlen, hmt⟩ := hngm (by simp [hsv])
    simp only [Hla.decode, Hla.decode_nibble, hf, hsv, hv]
    simp only [reduceIte]
    split_ifs with h4 <;>
      simp_all [DecInv, List.length_append]
  | GET_COMMAND =>
    obtain ⟨hlen, hmt⟩ := hngm (by simp [hsv])
    simp only [Hla.decode, Hla.decode_command, hf, hsv, hv]
    simp only [reduceIte]
    split_ifs with h9 <;>
      simp_all [DecInv, List.length_append]

/-- The invariant is preserved along any run of well-formed bit
events. -/
lemma inv_run (l : List Frame)
    (hl : ∀ f ∈ l, f.type = "result" ∧ (extractBit f).isSome) (s : Hla)
    (hs : DecInv s) : DecInv (runState s l) := by
  induction l generalizing s with
  | nil => simpa [runState_nil] using hs
  | cons f fs ih =>
    rw [runState_cons]
    exact ih (fun g hg => hl g (List.mem_cons_of_mem f hg)) _
      (inv_step s f (hl f (List.mem_cons_self f fs)).1 (hl f (List.mem_cons_self f fs)).2 hs)

/-- Framing-end emits a record exactly when the start time, end time
and mode label are all set. -/
lemma disable_emits_iff (s : Hla) (d : Frame) (hd : d.type = "disable") :
    (∃ r, (s.decode d).2 = Except.ok (some r)) ↔
    (s.transaction_start_time.isSome ∧ s.transaction_end_time.isSome ∧
      s.mode_type.isSome) := by
  have : (s.decode d).2 =
      Except.ok (if disableGuard s then some (disableRecord s) else none) := by
    simp [Hla.decode, hd]
  rw [this]
  split_ifs with h
  · simpa [disableGuard] using h
  · simpa [disableGuard] using h

/-- C1: for a freshly constructed decoder fed framing-start, any
sequence of well-formed bit events, then framing-end, a record is
emitted iff exactly 3 mode bits were accumulated and either at least
one complete nibble or a complete 9-bit command word was collected. -/
theorem completeness_or_silence (e d : Frame) (l : List Frame)
    (he : e.type = "enable") (hd : d.type = "disable")
    (hl : ∀ f ∈ l, f.type = "result" ∧ (extractBit f).isSome) :
    (∃ r, ((runState Hla.init (e :: l)).decode d).2 = Except.ok (some r)) ↔
    ((runState Hla.init (e :: l)).mode_buffer.length = 3 ∧
     ((runState Hla.init (e :: l)).nibble_list ≠ [] ∨
      (runState Hla.init (e :: l)).command_bits ≠ none)) := by
  have hinv : DecInv (runState Hla.init (e :: l)) := by
    rw [runState_cons]
    exact inv_run l hl _ (inv_enable Hla.init e he)
  obtain ⟨hst, hgm, hngm, hstart, hend⟩ := hinv
  rw [disable_emits_iff _ d hd]
  simp only [Option.isSome_iff_ne_none]
  constructor
  · rintro ⟨h1, h2, h3⟩
    have hne : (runState Hla.init (e :: l)).state ≠ DECODER_STATE.GET_MODE := by
      intro hgmode
      exact h3 (hgm hgmode).2.1
    exact ⟨(hngm hne).1, hend.mp h2⟩
  · rintro ⟨h3, hne⟩
    have hsne : (runState Hla.init (e :: l)).state ≠ DECODER_STATE.GET_MODE := by
      intro hgmode
      have := (hgm hgmode).1
      omega
    refine ⟨?_, hend.mpr hne, (hngm hsne).2⟩
    have : (runState Hla.init (e :: l)).mode_buffer ≠ [] := by
      intro hnil
      rw [hnil] at h3
      simp at h3
    exact hstart.mpr this

/-- C1 witness: the write transaction with one nibble satisfies the
emission condition and emits. -/
theorem completeness_or_silence_witness :
    (∃ r, ((runState Hla.init
        (enableF :: bitFramesFrom 0 [1,0,1, 0,0,0,0,0,1, 1,0,0,0])).decode disableF).2 =
      Except.ok (some r)) ↔
    ((runState Hla.init
        (enableF :: bitFramesFrom 0 [1,0,1, 0,0,0,0,0,1, 1,0,0,0])).mode_buffer.length = 3 ∧
     ((runState Hla.init
        (enableF :: bitFramesFrom 0 [1,0,1, 0,0,0,0,0,1, 1,0,0,0])).nibble_list ≠ [] ∨
      (runState Hla.init
        (enableF :: bitFramesFrom 0 [1,0,1, 0,0,0,0,0,1, 1,0,0,0])).command_bits ≠ none)) :=
  completeness_or_silence enableF disableF (bitFramesFrom 0 [1,0,1, 0,0,0,0,0,1, 1,0,0,0])
    rfl rfl (by decide)

lemma runTrace_nil (s : Hla) : runTrace s [] = [] := rfl

lemma runTrace_cons (s : Hla) (f : Frame) (fs : List Frame) :
    runTrace s (f :: fs) = (s.decode f).2 :: runTrace (s.decode f).1 fs := rfl

set_option maxRecDepth 8192 in
/-- Feeding the MSB-first bit expansion of a 9-bit word to the command
assembly loop reproduces the word. -/
lemma cmdAssemble_natBits9 : ∀ w, w < 512 → cmdAssemble (natBits9 w) = w := by
  decide

set_option maxRecDepth 8192 in
/-- C8: there are 9-bit words (such as `0b110000000`) matched by no
command-table entry; for every such word `lookup_command` returns the
no-match sentinel, and the command transaction carrying its bits emits
one record whose command field is "Unknown Command" and whose command
bits carry the raw word as a 9-digit binary string. -/
theorem unknown_command_reported (w : Nat) (hw : w < 512)
    (hnm : ∀ c ∈ HT1621_COMMAND, ¬ cmdMatches w c) :
    lookup_command w = none ∧
    (∀ c ∈ HT1621_COMMAND, ¬ cmdMatches 0b110000000 c) ∧
    runOutputs (txnEvents ([1,0,0] ++ natBits9 w)) =
      [⟨"Command (0b100)", 0, 12,
        [("command", some "Unknown Command"),
         ("command_bits", some (fmtCommandBits w))]⟩] := by
  have hlk : lookup_command w = none := by
    have : HT1621_COMMAND.find?
        (fun cmd => w &&& cmd.mask == cmd.value &&& cmd.mask) = none :=
      List.find?_eq_none.mpr (fun c hc => by simpa [cmdMatches] using hnm c hc)
    simp [lookup_command, this]
  have hasm : cmdAssemble (natBits9 w) = w := cmdAssemble_natBits9 w hw
  refine ⟨hlk, by decide, ?_⟩
  simp only [natBits9, Nat.and_one_is_mod] at hasm
  simp [runOutputs, runTrace_cons, runTrace_nil, txnEvents, bitFramesFrom, mkBit,
    enableF, disableF, natBits9, Hla.decode, Hla.decode_mode, Hla.decode_command,
    extractBit, frameGet, List.find?, disableGuard, disableRecord, disableDict,
    Except.map, hasm, hlk, modeLabel, HT1621_MODE, fmtUnknownMode, pyOrElse]

/-- C8 witness: the unmatched word `0b110000000 = 384`. -/
theorem unknown_command_reported_witness :
    lookup_command 384 = none ∧
    (∀ c ∈ HT1621_COMMAND, ¬ cmdMatches 0b110000000 c) ∧
    runOutputs (txnEvents ([1,0,0] ++ natBits9 384)) =
      [⟨"Command (0b100)", 0, 12,
        [("command", some "Unknown Command"),
         ("command_bits", some (fmtCommandBits 384))]⟩] :=
  unknown_command_reported 384 (by decide) (by decide)

lemma v2_runState_nil (s : V2.Hla) : V2.runState s [] = s := rfl

lemma v2_runState_cons (s : V2.Hla) (f : Frame) (fs : List Frame) :
    V2.runState s (f :: fs) = V2.runState (s.decode f).1 fs := rfl

lemma v2_runTrace_nil (s : V2.Hla) : V2.runTrace s [] = [] := rfl

lemma v2_runTrace_cons (s : V2.Hla) (f : Frame) (fs : List Frame) :
    V2.runTrace s (f :: fs) = (s.decode f).2 :: V2.runTrace (s.decode f).1 fs := rfl

/-- The two mode dictionaries have identical contents, so the two
mode-label lookups agree. -/
lemma V2.modeLabel_eq (m : Nat) : V2.modeLabel m = modeLabel m := rfl

/-- For any mode value other than `0b100`, the resolved label is not
the command-mode label. -/
lemma modeLabel_ne_command (m : Nat) (hm : m ≠ 4) :
    modeLabel m ≠ "Command (0b100)" := by
  rcases eq_or_ne m 6 with rfl | h6
  · simp [modeLabel, HT1621_MODE, List.find?]
  rcases eq_or_ne m 5 with rfl | h5
  · simp [modeLabel, HT1621_MODE, List.find?]
  have e6 : ((6 : Nat) == m) = false := by simpa using Ne.symm h6
  have e5 : ((5 : Nat) == m) = false := by simpa using Ne.symm h5
  have e4 : ((4 : Nat) == m) = false := by simpa using Ne.symm hm
  simpa [modeLabel, HT1621_MODE, List.find?, e6, e5, e4] using
    fmtUnknownMode_ne_command m

/-- Correspondence between the two decoders' state tags (command
collection is never reached in the simulated runs). -/
def stateMap : DECODER_STATE → V2.DECODER_STATE
  | .START => .START
  | .GET_MODE => .GET_MODE
  | .GET_ADDRESS => .GET_ADDRESS
  | .GET_DATA_NIBBLES => .GET_DATA_NIBBLES
  | .GET_COMMAND => .START

/-- Simulation relation between the states of the two decoders: the
first decoder is outside command collection, the second mirrors its
state tag, and all shared accumulator fields agree (the mode label
consequently is never the command-mode label). -/
def Sim (a : Hla) (b : V2.Hla) : Prop :=
  a.state ≠ DECODER_STATE.GET_COMMAND ∧
  b.state = stateMap a.state ∧
  b.mode_buffer = a.mode_buffer ∧
  b.address_buffer = a.address_buffer ∧
  b.data_buffer = a.data_buffer ∧
  b.nibble_list = a.nibble_list ∧
  b.transaction_start_time = a.transaction_start_time ∧
  b.transaction_end_time = a.transaction_end_time ∧
  b.mode_type = a.mode_type ∧
  b.address_value = a.address_value ∧
  a.mode_type ≠ some "Command (0b100)"

lemma sim_init : Sim Hla.init V2.Hla.init := by
  simp [Sim, Hla.init, V2.Hla.init, stateMap]

/-- One event preserves the simulation and produces the same result in
both decoders, provided the first decoder does not enter command
collection on this event. -/
lemma sim_step (a : Hla) (b : V2.Hla) (f : Frame) (hs : Sim a b)
    (hnc : (a.decode f).1.state ≠ DECODER_STATE.GET_COMMAND) :
    Sim (a.decode f).1 (b.decode f).1 ∧ (a.decode f).2 = (b.decode f).2 := by
  obtain ⟨bst, bmb, bab, bdb, bnl, btd, bts, bte, bmt, bav⟩ := b
  obtain ⟨hac, hbs, hmb, hab, hdb, hnl, hts, hte, hmt, hav, hcm⟩ := hs
  dsimp only at hbs hmb hab hdb hnl hts hte hmt hav
  subst hbs hmb hab hdb hnl hts hte hmt hav
  by_cases hen : f.type = "enable"
  · constructor
    · simp [Hla.decode, V2.Hla.decode, hen, Sim, stateMap]
    · simp [Hla.decode, V2.Hla.decode, hen]
  by_cases hres : f.type = "result"
  · cases hsv : a.state with
    | START =>
      constructor
      · simp [Hla.decode, V2.Hla.decode, hres, hen, hsv, stateMap, Sim, hcm]
      · simp [Hla.decode, V2.Hla.decode, hres, hen, hsv, stateMap]
    | GET_MODE =>
      cases hv : extractBit f with
      | none =>
        constructor
        · simp only [Hla.decode, V2.Hla.decode, Hla.decode_mode, V2.Hla.decode_mode,
            hres, hen, hsv, hv, stateMap]
          split_ifs <;>
            simp_all [Sim, stateMap, hsv, hcm]
        · simp only [Hla.decode, V2.Hla.decode, Hla.decode_mode, V2.Hla.decode_mode,
            hres, hen, hsv, hv, stateMap]
          split_ifs <;> rfl
      | some v =>
        by_cases hlen2 : a.mode_buffer.length = 2
        · obtain ⟨b0, b1, hb⟩ := List.length_eq_two.mp hlen2
          by_cases hm : b0 <<< 2 ||| b1 <<< 1 ||| v = 4
          · exfalso
            apply hnc
            simp [Hla.decode, Hla.decode_mode, hres, hsv, hv, hb, hm]
          · have hne := modeLabel_ne_command (b0 <<< 2 ||| b1 <<< 1 ||| v) hm
            constructor
            · simp [Hla.decode, V2.Hla.decode, Hla.decode_mode, V2.Hla.decode_mode,
                hres, hsv, hv, hb, hm, Sim, stateMap, hne]
              exact V2.modeLabel_eq _
            · simp [Hla.decode, V2.Hla.decode, Hla.decode_mode, V2.Hla.decode_mode,
                hres, hsv, hv, hb, hm, stateMap, Except.map]
        · have hlen3 : ¬ (a.mode_buffer ++ [v]).length = 3 := by
            simp only [List.length_append, List.length_cons, List.length_nil]
            omega
          constructor
          · simp only [Hla.decode, V2.Hla.decode, Hla.decode_mode, V2.Hla.decode_mode,
              hres, hen, hsv, hv, stateMap]
            simp only [reduceIte, hlen3, if_false]
            split_ifs <;>
              simp_all [Sim, stateMap]
          · simp only [Hla.decode, V2.Hla.decode, Hla.decode_mode, V2.Hla.decode_mode,
              hres, hen, hsv, hv, stateMap]
            simp only [reduceIte, hlen3, if_false]
            split_ifs <;> rfl
    | GET_ADDRESS =>
      cases hv : extractBit f with
      | none =>
        constructor
        · simp [Hla.decode, V2.Hla.decode, Hla.decode_address, V2.Hla.decode_address,
            hres, hen, hsv, hv, stateMap, Sim, hcm]
        · simp [Hla.decode, V2.Hla.decode, Hla.decode_address, V2.Hla.decode_address,
            hres, hen, hsv, hv, stateMap]
      | some v =>
        constructor
        · simp only [Hla.decode, V2.Hla.decode, Hla.decode_address, V2.Hla.decode_address,
            hres, hen, hsv, hv, stateMap]
          split_ifs <;>
            simp_all [Sim, stateMap, hsv, hcm]
        · simp only [Hla.decode, V2.Hla.decode, Hla.decode_address, V2.Hla.decode_address,
            hres, hen, hsv, hv, stateMap]
          split_ifs <;> rfl
    | GET_DATA_NIBBLES =>
      cases hv : extractBit f with
      | none =>
        constructor
        · simp [Hla.decode, V2.Hla.decode, Hla.decode_nibble, V2.Hla.decode_nibble,
            hres, hen, hsv, hv, stateMap, Sim, hcm]
        · simp [Hla.decode, V2.Hla.decode, Hla.decode_nibble, V2.Hla.decode_nibble,
            hres, hen, hsv, hv, stateMap]
      | some v =>
        constructor
        · simp only [Hla.decode, V2.Hla.decode, Hla.decode_nibble, V2.Hla.decode_nibble,
            hres, hen, hsv, hv, stateMap]
          split_ifs <;>
            simp_all [Sim, stateMap, hsv, hcm]
        · simp only [Hla.decode, V2.Hla.decode, Hla.decode_nibble, V2.Hla.decode_nibble,
            hres, hen, hsv, hv, stateMap]
          split_ifs <;> rfl
    | GET_COMMAND => exact absurd hsv hac
  by_cases hdis : f.type = "disable"
  · constructor
    · simp [Hla.decode, V2.Hla.decode, hen, hres, hdis, Sim, stateMap, hcm]
    · simp only [Hla.decode, V2.Hla.decode, hen, hres, hdis, reduceIte,
        disableGuard, disableRecord, disableDict]
      simp [hcm]
  · constructor
    · simp [Hla.decode, V2.Hla.decode, hen, hres, hdis, Sim, stateMap, hcm, hac]
    · simp [Hla.decode, V2.Hla.decode, hen, hres, hdis]

/-- The two decoders produce identical result traces from simulated
states, as long as the first never enters command collection. -/
lemma runTrace_sim (evts : List Frame) : ∀ (a : Hla) (b : V2.Hla), Sim a b →
    (∀ n, (runState a (evts.take n)).state ≠ DECODER_STATE.GET_COMMAND) →
    runTrace a evts = V2.runTrace b evts := by
  induction evts with
  | nil => intro a b _ _; rfl
  | cons f fs ih =>
    intro a b hs hnc
    have h1 : (a.decode f).1.state ≠ DECODER_STATE.GET_COMMAND := by
      have := hnc 1
      simpa [List.take_succ_cons, runState_cons, runState_nil] using this
    obtain ⟨hsim, hout⟩ := sim_step a b f hs h1
    rw [runTrace_cons, v2_runTrace_cons, hout]
    congr 1
    exact ih _ _ hsim (fun n => by
      have := hnc (n + 1)
      simpa [List.take_succ_cons, runState_cons] using this)

/-- C9: on any event sequence along which the HT1621 decoder never
resolves a transaction's mode to `0b100` (it never enters command
collection), the decoders of `src/HT1621.py` and of
`src/HighLevelAnalyzer.py`, both started fresh, emit identical record
sequences. -/
theorem analyzers_agree_without_command_mode (evts : List Frame)
    (h : ∀ n, (runState Hla.init (evts.take n)).state ≠ DECODER_STATE.GET_COMMAND) :
    runOutputs evts = V2.runOutputs evts := by
  unfold runOutputs V2.runOutputs
  rw [runTrace_sim evts Hla.init V2.Hla.init sim_init h]

/-- C9 witness: a single framing-start event. -/
theorem analyzers_agree_without_command_mode_witness :
    runOutputs [enableF] = V2.runOutputs [enableF] :=
  analyzers_agree_without_command_mode [enableF] (by
    intro n
    cases n with
    | zero => decide
    | succ m =>
      rw [List.take_succ_cons, List.take_nil]
      decide)
